import Mathlib

/-
Verification of the per-step execution engine of automatix
(src/automatix/command.py) against its natural-language specification.

The Python module is shallowly embedded below: pure methods become Lean
functions, fallible code returns Except, and the effectful parts
(subprocess invocation, operator prompts, remote process queries) are
modelled by explicit environments supplying the external inputs and by
explicit state counters recording the observable external actions.
-/

namespace Automatix

/-- Failure taxonomy of the engine.  Each constructor embeds one raise
site of src/automatix/command.py:
  unknownCommandKind — UnknownCommandException in Command.get_type (line 43);
  unknownHost        — the KeyError raised by the systems dictionary lookup
                       in Command.get_system (line 47);
  unresolvedVariable — the KeyError raised by str.format in
                       Command.get_resolved_value (line 54) when a
                       placeholder name is absent from the mapping;
  valueError         — the ValueError raised by str.format on a malformed
                       template (stray or unterminated brace). -/
inductive Err where
  | unknownCommandKind (key : String)
  | unknownHost (host : String)
  | unresolvedVariable (name : String)
  | valueError (msg : String)
  deriving DecidableEq, Repr

/-- The four execution kinds recognised by Command.get_type (lines 34-43). -/
inductive KeyKind where
  | local
  | manual
  | python
  | remote
  deriving DecidableEq, Repr

/-- The value of a pipeline entry as handed over by the yaml decoder:
either a plain string, or a dictionary (modelled as its ordered list of
key/value entries; only the keys are ever inspected by the engine). -/
inductive CmdValue where
  | str (s : String)
  | dict (entries : List (String × String))
  deriving DecidableEq, Repr

/-- A Python dictionary is modelled as an ordered association list with
unique keys; lookup is List.lookup (first match).  dictSet embeds item
assignment d[k] = v: overwrite the binding in place if the key is
present, append it otherwise. -/
def dictSet : List (String × String) → String → String → List (String × String)
  | [], k, v => [(k, v)]
  | (k', v') :: rest, k, v =>
    if k' = k then (k, v) :: rest else (k', v') :: dictSet rest k v

/-- Embedding of the Command object (src/automatix/command.py lines 16-32).
The fields mirror the attributes set in Command.__init__. -/
structure Command where
  origKey : String
  assignment : Bool
  assignmentVar : String
  key : String
  value : String
  index : Nat
  systems : List (String × String)
  vars : List (String × String)
  imports : List String
  deriving DecidableEq, Repr

/-- Splits a character list at its last occurrence of the character =,
returning the parts before and after it; none if = does not occur.
This is the effect of re.search with the greedy pattern of two groups
around a literal = (command.py line 191): the first group extends to the
last =. -/
def splitAtLastEq : List Char → Option (List Char × List Char)
  | [] => none
  | c :: cs =>
    match splitAtLastEq cs with
    | some (l, r) => some (c :: l, r)
    | none => if c = '=' then some ([], cs) else none

/-- Embedding of get_assignment_var (command.py lines 188-191): a key
without = is no assignment; otherwise the text before the last = is the
assignment variable and the text after it the remaining key. -/
def getAssignmentVar (key : String) : Bool × String × String :=
  match splitAtLastEq key.data with
  | none => (false, "", key)
  | some (l, r) => (true, String.mk l, String.mk r)

/-- The template synthesised from a pipeline entry value
(Command.__init__ lines 26-31): a plain string is taken verbatim; a
dictionary value is collapsed to a single placeholder referencing its
first key (next(iter(value))); an empty dictionary makes the constructor
fail (StopIteration), modelled as none. -/
def cmdValueTemplate : CmdValue → Option String
  | .str s => some s
  | .dict [] => none
  | .dict ((k, _) :: _) => some ("\x7b" ++ k ++ "\x7d")

/-- Embedding of Command.__init__ (command.py lines 17-32).  The source
iterates over the entry dictionary and breaks after the first pair, so
only the first key/value pair of the entry contributes; an entry with no
pair leaves the attributes unset (modelled as none). -/
def mkCommand (pipelineCmd : List (String × CmdValue)) (index : Nat)
    (systems : List (String × String)) (vars0 : List (String × String))
    (imports : List String) : Option Command :=
  match pipelineCmd with
  | [] => none
  | (k, v) :: _ =>
    match cmdValueTemplate v with
    | none => none
    | some value =>
      let a := getAssignmentVar k
      some { origKey := k, assignment := a.1, assignmentVar := a.2.1,
             key := a.2.2, value := value, index := index,
             systems := systems, vars := vars0, imports := imports }

/-- Boolean list-prefix test used to embed the substring search of
re.search with a literal pattern. -/
def isPrefixL : List Char → List Char → Bool
  | [], _ => true
  | _ :: _, [] => false
  | p :: ps, c :: cs => p = c && isPrefixL ps cs

/-- Leftmost-match search for a literal pattern: returns the suffix
after the first occurrence of pat (the text captured by a trailing
greedy group), none when pat does not occur. -/
def afterFirstL (pat : List Char) : List Char → Option (List Char)
  | [] => if isPrefixL pat [] then some (List.drop pat.length []) else none
  | c :: cs =>
    if isPrefixL pat (c :: cs) then some (List.drop pat.length (c :: cs))
    else afterFirstL pat cs

/-- Substring containment, as tested by re.search with a literal
pattern (command.py line 41). -/
def hasSubstr (s pat : String) : Bool :=
  (afterFirstL pat.data s.data).isSome

/-- Embedding of Command.get_type (command.py lines 34-43). -/
def getType (c : Command) : Except Err KeyKind :=
  if c.key = "local" then .ok .local
  else if c.key = "manual" then .ok .manual
  else if c.key = "python" then .ok .python
  else if hasSubstr c.key "remote@" then .ok .remote
  else .error (.unknownCommandKind c.key)

/-- Embedding of Command.get_system (command.py lines 45-48): for a
remote kind, the text after the marker remote@ is looked up in the
systems dictionary (a missing entry raises, see Err.unknownHost); every
other kind yields the literal "localhost". -/
def getSystem (c : Command) : Except Err String :=
  match getType c with
  | .error e => .error e
  | .ok .remote =>
    match afterFirstL "remote@".data c.key.data with
    | some h =>
      match List.lookup (String.mk h) c.systems with
      | some addr => .ok addr
      | none => .error (.unknownHost (String.mk h))
    | none =>
      -- unreachable: getType only returns remote when the marker occurs
      .error (.unknownCommandKind c.key)
  | .ok _ => .ok "localhost"

/-- Prepends a character to the output of a format scan, passing errors
through. -/
def prependChar (ch : Char) : Except Err (List Char) → Except Err (List Char)
  | .ok out => .ok (ch :: out)
  | .error e => .error e

/-- Prepends a substituted value to the output of a format scan, passing
errors through. -/
def prependStr (v : String) : Except Err (List Char) → Except Err (List Char)
  | .ok out => .ok (v.data ++ out)
  | .error e => .error e

/-- Mode of the format scanner: scanning literal text, directly after
an opening brace, directly after a closing brace, or inside a
replacement field with the reversed field-name characters read so
far. -/
inductive FmtMode where
  | text
  | openBrace
  | closeBrace
  | field (acc : List Char)
  deriving DecidableEq, Repr

/-- Scanner embedding the subset of the CPython str.format algorithm the
engine exercises (plain keyword field names, doubled braces as literal
braces, no conversion or format-spec suffixes).  A doubled brace is a
literal brace; an opening brace otherwise starts a replacement field
read up to the next closing brace; a field name absent from the mapping
raises KeyError (Err.unresolvedVariable); a stray or unterminated brace
raises ValueError (Err.valueError). -/
def fmtGo (m : List (String × String)) : List Char → FmtMode → Except Err (List Char)
  | [], .text => .ok []
  | [], .openBrace => .error (.valueError "unterminated replacement field")
  | [], .closeBrace => .error (.valueError "single closing brace")
  | [], .field _ => .error (.valueError "unterminated replacement field")
  | ch :: rest, .text =>
    if ch = '{' then fmtGo m rest .openBrace
    else if ch = '}' then fmtGo m rest .closeBrace
    else prependChar ch (fmtGo m rest .text)
  | ch :: rest, .openBrace =>
    if ch = '{' then prependChar '{' (fmtGo m rest .text)
    else if ch = '}' then
      match List.lookup (String.mk []) m with
      | some v => prependStr v (fmtGo m rest .text)
      | none => .error (.unresolvedVariable (String.mk []))
    else fmtGo m rest (.field [ch])
  | ch :: rest, .closeBrace =>
    if ch = '}' then prependChar '}' (fmtGo m rest .text)
    else .error (.valueError "single closing brace")
  | ch :: rest, .field acc =>
    if ch = '}' then
      match List.lookup (String.mk acc.reverse) m with
      | some v => prependStr v (fmtGo m rest .text)
      | none => .error (.unresolvedVariable (String.mk acc.reverse))
    else fmtGo m rest (.field (ch :: acc))

/-- self.value.format(**variables) (command.py line 54). -/
def pyFormat (tpl : String) (m : List (String × String)) : Except Err String :=
  match fmtGo m tpl.data .text with
  | .ok out => .ok (String.mk out)
  | .error e => .error e

/-- Decides whether a template is free of brace errors: true exactly
when the scan of fmtGo never hits a stray or unterminated brace.  Walks
the template in lockstep with fmtGo. -/
def wfGo : List Char → FmtMode → Bool
  | [], .text => true
  | [], _ => false
  | ch :: rest, .text =>
    if ch = '{' then wfGo rest .openBrace
    else if ch = '}' then wfGo rest .closeBrace
    else wfGo rest .text
  | ch :: rest, .openBrace =>
    if ch = '{' then wfGo rest .text
    else if ch = '}' then wfGo rest .text
    else wfGo rest (.field [ch])
  | ch :: rest, .closeBrace =>
    if ch = '}' then wfGo rest .text
    else false
  | ch :: rest, .field acc =>
    if ch = '}' then wfGo rest .text
    else wfGo rest (.field (ch :: acc))

/-- The field names a template references, in order, walking the
template in lockstep with fmtGo. -/
def refGo : List Char → FmtMode → List String
  | [], _ => []
  | ch :: rest, .text =>
    if ch = '{' then refGo rest .openBrace
    else if ch = '}' then refGo rest .closeBrace
    else refGo rest .text
  | ch :: rest, .openBrace =>
    if ch = '{' then refGo rest .text
    else if ch = '}' then String.mk [] :: refGo rest .text
    else refGo rest (.field [ch])
  | ch :: rest, .closeBrace =>
    if ch = '}' then refGo rest .text
    else []
  | ch :: rest, .field acc =>
    if ch = '}' then String.mk acc.reverse :: refGo rest .text
    else refGo rest (.field (ch :: acc))

/-- The merged substitution mapping of Command.get_resolved_value
(command.py lines 50-53): a copy of the run's variables, into which
every process constant is inserted under its name prefixed with
const_. -/
def mergedVariables (vars0 consts : List (String × String)) : List (String × String) :=
  consts.foldl (fun acc kv => dictSet acc ("const_" ++ kv.1) kv.2) vars0

/-- Embedding of Command.get_resolved_value (command.py lines 50-54),
parameterised by the process-wide CONSTANTS mapping (imported by the
source from its constants module). -/
def getResolvedValue (c : Command) (consts : List (String × String)) : Except Err String :=
  pyFormat c.value (mergedVariables c.vars consts)

/-- Command.get_resolved_value with the state of the method made
explicit: the source copies self.vars before inserting the constants
(line 51), so the variables attribute the run shares is returned
untouched alongside the result. -/
def getResolvedValueV (c : Command) (consts : List (String × String)) :
    Except Err String × List (String × String) :=
  let merged := mergedVariables c.vars consts
  (pyFormat c.value merged, c.vars)

/-- IMPORT_PATH (command.py line 11). -/
def IMPORT_PATH : String := "."

/-- REMOTE_TMP_DIR (command.py line 13). -/
def REMOTE_TMP_DIR : String := "automatix_tmp"

/-- SSH_CMD with the hostname substituted (command.py lines 12 and 114). -/
def sshCmdFor (hostname : String) : String :=
  "ssh " ++ hostname ++ " sudo "

/-- A single-quote character, kept out of string literals. -/
def squote : String := String.mk [Char.ofNat 39]

/-- The characters shlex.quote leaves unquoted (ASCII word characters
and the punctuation of its safe set). -/
def shlexSafeChar (c : Char) : Bool :=
  ('a' ≤ c && c ≤ 'z') || ('A' ≤ c && c ≤ 'Z') || ('0' ≤ c && c ≤ '9') ||
    c = '_' || c = '@' || c = '%' || c = '+' || c = '=' || c = ':' ||
    c = ',' || c = '.' || c = '/' || c = '-'

/-- Embedding of shlex.quote: the empty string becomes a pair of single
quotes, a string of safe characters is returned as is, anything else is
wrapped in single quotes with every embedded single quote replaced by
the quote-double-quote-quote-double-quote-quote sequence. -/
def shlexQuote (s : String) : String :=
  if s = "" then squote ++ squote
  else if s.data.all shlexSafeChar then s
  else squote ++ s.replace squote (squote ++ "\"" ++ squote ++ "\"" ++ squote) ++ squote

/-- Embedding of Command._build_command (command.py lines 163-166): with
no declared import scripts the resolved command is returned unchanged;
otherwise each import script is sourced from the given path, the
directives and the resolved command joined by semicolons. -/
def buildCommand (c : Command) (consts : List (String × String)) (path : String) :
    Except Err String :=
  match getResolvedValue c consts with
  | .error e => .error e
  | .ok resolved =>
    if c.imports.isEmpty then .ok resolved
    else .ok (". " ++ path ++ "/" ++
      String.intercalate ("; . " ++ path ++ "/") c.imports ++ "; " ++ resolved)

/-- External inputs of one Command._remote_action run.  The subprocess
layer and the operator are oracles: runInterrupted tells whether the
local supervising process receives a KeyboardInterrupt while waiting on
the ssh invocation, runRc is the exit code when it does not, pids gives
the result of the n-th get_remote_pids query, answers the n-th operator
response in the signal-escalation loop, and cleanupRc the exit code of
the staging-directory removal. -/
structure REnv where
  runInterrupted : Bool
  runRc : Int
  pids : Nat → List String
  answers : Nat → String
  cleanupRc : Int

/-- Observable external actions of one Command._remote_action run:
counts of remote PID queries, operator prompts, kill commands sent,
staging-directory removal attempts, and warnings logged. -/
structure RSt where
  pidQueries : Nat
  prompts : Nat
  kills : Nat
  cleanups : Nat
  warnings : Nat
  deriving DecidableEq, Repr

/-- Result of Command._remote_action: an exit code and the external
actions performed, an uncaught exception, or nofuel when the unbounded
signal-escalation loop of the source outruns the fuel. -/
inductive RResult where
  | ok (code : Int) (st : RSt)
  | err (e : Err)
  | nofuel
  deriving DecidableEq, Repr

/-- The signal-escalation loop of Command._remote_action (command.py
lines 132-151): while the PID query finds remote processes, prompt the
operator; "p" leaves the loop, "t" sends SIGTERM, "k" sends SIGKILL and
any other answer SIGINT to every found PID, then the query is repeated.
The while loop of the source is unbounded, hence the fuel. -/
def killLoop (env : REnv) : Nat → List String → RSt → Option RSt
  | _, [], st => some st
  | 0, _ :: _, _ => none
  | fuel + 1, ps, st =>
    let ans := env.answers st.prompts
    let st1 : RSt := { st with prompts := st.prompts + 1 }
    if ans = "p" then some st1
    else
      let st2 : RSt := { st1 with kills := st1.kills + ps.length }
      let st3 : RSt := { st2 with pidQueries := st2.pidQueries + 1 }
      killLoop env fuel (env.pids st2.pidQueries) st3

/-- Embedding of Command._remote_action (command.py lines 111-161).
The ssh invocation itself is the oracle env: if it is interrupted the
exit code becomes 130 and one PID query is made, then the escalation
loop runs; afterwards, when import scripts were staged, removal of the
remote staging directory is attempted exactly once, its exit code only
ever producing a warning.  The built command line is recorded for
fidelity but consumed by the subprocess oracle. -/
def remoteAction (c : Command) (consts : List (String × String)) (env : REnv)
    (fuel : Nat) (st : RSt) : RResult :=
  match getSystem c with
  | .error e => .err e
  | .ok hostname =>
    let sshCmd := sshCmdFor hostname
    match getResolvedValue c consts with
    | .error e => .err e
    | .ok resolved =>
      match buildCommand c consts REMOTE_TMP_DIR with
      | .error e => .err e
      | .ok builtRemote =>
        let prefixPart :=
          if c.imports.isEmpty then ""
          else "tar -C " ++ IMPORT_PATH ++ " -cf - " ++
            String.intercalate " " c.imports ++ " | "
        let remoteCmd :=
          if c.imports.isEmpty then resolved
          else "mkdir " ++ REMOTE_TMP_DIR ++ "; tar -C " ++ REMOTE_TMP_DIR ++
            " -xf -; " ++ builtRemote
        let _cmd := prefixPart ++ sshCmd ++
          shlexQuote ("bash -c " ++ shlexQuote remoteCmd)
        let afterRun : Option (Int × RSt) :=
          if env.runInterrupted then
            let st1 : RSt := { st with pidQueries := st.pidQueries + 1 }
            match killLoop env fuel (env.pids st.pidQueries) st1 with
            | none => none
            | some st2 => some (130, st2)
          else some (env.runRc, st)
        match afterRun with
        | none => .nofuel
        | some (exitcode, st2) =>
          if c.imports.isEmpty then .ok exitcode st2
          else
            let st3 : RSt := { st2 with cleanups := st2.cleanups + 1 }
            let st4 : RSt :=
              if env.cleanupRc ≠ 0 then { st3 with warnings := st3.warnings + 1 }
              else st3
            .ok exitcode st4

/-- External inputs of Command.execute: answers gives the n-th operator
response read by input(), rcs the exit code of the n-th dispatched
action (the local, python or remote action, whose exit codes come from
subprocesses or the embedded interpreter). -/
structure XEnv where
  answers : Nat → String
  rcs : Nat → Int

/-- Observable actions of Command.execute: prompts counts the input()
calls, runs the dispatched actions. -/
structure XSt where
  prompts : Nat
  runs : Nat
  deriving DecidableEq, Repr

/-- Outcome of Command.execute: a plain return, a raised
AbortException carrying an exit-code string, an uncaught exception from
resolution or classification, or nofuel when the retry recursion of the
source outruns the fuel. -/
inductive XOutcome where
  | normal
  | abort (code : String)
  | err (e : Err)
  | nofuel
  deriving DecidableEq, Repr

/-- Dispatch of Command.execute (command.py lines 67-72): a manual step
runs no action and keeps the initial exit code 0; each of the other
kinds runs its action, whose exit code the environment supplies. -/
def dispatchStep (env : XEnv) (ty : KeyKind) (st : XSt) : Int × XSt :=
  match ty with
  | .manual => (0, st)
  | _ => (env.rcs st.runs, { st with runs := st.runs + 1 })

/-- Embedding of Command.execute (command.py lines 56-82).  The entry
log line resolves the command, so resolution failures surface first;
the manual gate is entered for manual steps or in interactive mode and
reads one answer ("s" skips the step, "a" aborts with code "1");
dispatch follows, and on a nonzero exit code the failure gate is
entered unless force is set ("r" re-invokes the whole step with force
reset to its default, "a" aborts with the string form of the exit code,
anything else proceeds).  Fuel bounds the retry recursion, which the
source leaves unbounded. -/
def executeF (c : Command) (consts : List (String × String)) (env : XEnv) :
    Nat → Bool → Bool → XSt → XOutcome × XSt
  | 0, _, _, st => (.nofuel, st)
  | fuel + 1, interactive, force, st =>
    match getResolvedValue c consts with
    | .error e => (.err e, st)
    | .ok _ =>
      match getType c with
      | .error e => (.err e, st)
      | .ok ty =>
        let gate : Option XOutcome × XSt :=
          if ty = .manual || interactive then
            let ans := env.answers st.prompts
            let st1 : XSt := { st with prompts := st.prompts + 1 }
            if ans = "s" then (some .normal, st1)
            else if ans = "a" then (some (.abort "1"), st1)
            else (none, st1)
          else (none, st)
        match gate with
        | (some out, st1) => (out, st1)
        | (none, st1) =>
          let d := dispatchStep env ty st1
          let rc := d.1
          let st2 := d.2
          if rc ≠ 0 then
            if force then (.normal, st2)
            else
              let ans := env.answers st2.prompts
              let st3 : XSt := { st2 with prompts := st2.prompts + 1 }
              if ans = "r" then executeF c consts env fuel interactive false st3
              else if ans = "a" then (.abort (toString rc), st3)
              else (.normal, st3)
          else (.normal, st2)

/-! Helper lemmas. -/

theorem sdata_append (s t : String) : (s ++ t).data = s.data ++ t.data := by
  cases s
  cases t
  rfl

theorem isPrefixL_append_self (p l : List Char) : isPrefixL p (p ++ l) = true := by
  induction p with
  | nil => rfl
  | cons c cs ih => simp [isPrefixL, ih]

theorem afterFirstL_of_match {p s : List Char} (h : isPrefixL p s = true) :
    afterFirstL p s = some (List.drop p.length s) := by
  cases s <;> simp [afterFirstL, h]

theorem afterFirstL_append_self (p l : List Char) :
    afterFirstL p (p ++ l) = some l := by
  rw [afterFirstL_of_match (isPrefixL_append_self p l), List.drop_left]

theorem c4_hasSubstr_ne_local {h : String} : "remote@" ++ h ≠ "local" := by
  intro he
  have hd := congrArg String.data he
  rw [sdata_append] at hd
  have h1 : "remote@".data = ['r', 'e', 'm', 'o', 't', 'e', '@'] := rfl
  have h2 : "local".data = ['l', 'o', 'c', 'a', 'l'] := rfl
  rw [h1, h2] at hd
  simp at hd

theorem c4_hasSubstr_ne_manual {h : String} : "remote@" ++ h ≠ "manual" := by
  intro he
  have hd := congrArg String.data he
  rw [sdata_append] at hd
  have h1 : "remote@".data = ['r', 'e', 'm', 'o', 't', 'e', '@'] := rfl
  have h2 : "manual".data = ['m', 'a', 'n', 'u', 'a', 'l'] := rfl
  rw [h1, h2] at hd
  simp at hd

theorem c4_hasSubstr_ne_python {h : String} : "remote@" ++ h ≠ "python" := by
  intro he
  have hd := congrArg String.data he
  rw [sdata_append] at hd
  have h1 : "remote@".data = ['r', 'e', 'm', 'o', 't', 'e', '@'] := rfl
  have h2 : "python".data = ['p', 'y', 't', 'h', 'o', 'n'] := rfl
  rw [h1, h2] at hd
  simp at hd

theorem hasSubstr_remote_append (h : String) :
    hasSubstr ("remote@" ++ h) "remote@" = true := by
  unfold hasSubstr
  rw [sdata_append, afterFirstL_append_self]
  rfl

/-! Claim theorems. -/

/-- C4: classification of the normalized key returns kind local exactly
when the key equals "local", manual exactly when it equals "manual",
python exactly when it equals "python", and remote exactly when the key
contains the substring "remote@"; every other key raises
UnknownCommandKind naming the offending key. -/
theorem c4_classification (c : Command) :
    (getType c = .ok .local ↔ c.key = "local") ∧
    (getType c = .ok .manual ↔ c.key = "manual") ∧
    (getType c = .ok .python ↔ c.key = "python") ∧
    (getType c = .ok .remote ↔ hasSubstr c.key "remote@" = true) ∧
    (c.key ≠ "local" → c.key ≠ "manual" → c.key ≠ "python" →
      hasSubstr c.key "remote@" = false →
      getType c = .error (.unknownCommandKind c.key)) := by
  have hl : hasSubstr "local" "remote@" = false := by decide
  have hm : hasSubstr "manual" "remote@" = false := by decide
  have hp : hasSubstr "python" "remote@" = false := by decide
  by_cases h1 : c.key = "local" <;>
    by_cases h2 : c.key = "manual" <;>
      by_cases h3 : c.key = "python" <;>
        by_cases h4 : hasSubstr c.key "remote@" = true <;>
          simp_all [getType]

/-- C4 witness: the key "weird" matches no kind and is classified as an
unknown command kind naming the key. -/
theorem c4_witness :
    getType { origKey := "weird", assignment := false, assignmentVar := "",
              key := "weird", value := "x", index := 1, systems := [],
              vars := [], imports := [] } =
      .error (.unknownCommandKind "weird") :=
  (c4_classification _).2.2.2.2 (by decide) (by decide) (by decide) (by decide)

/-- C5: for a key of the form remote@h, host resolution returns
systems[h] when h is a key of the systems mapping and fails with the
unknown-host error naming h when it is absent. -/
theorem c5_host_resolution (c : Command) (h : String)
    (hkey : c.key = "remote@" ++ h) :
    (∀ v, List.lookup h c.systems = some v → getSystem c = .ok v) ∧
    (List.lookup h c.systems = none →
      getSystem c = .error (.unknownHost h)) := by
  have hty : getType c = .ok .remote := by
    unfold getType
    rw [hkey]
    rw [if_neg c4_hasSubstr_ne_local, if_neg c4_hasSubstr_ne_manual,
      if_neg c4_hasSubstr_ne_python, if_pos (hasSubstr_remote_append h)]
  have hafter : afterFirstL "remote@".data c.key.data = some h.data := by
    rw [hkey, sdata_append]
    exact afterFirstL_append_self _ _
  constructor
  · intro v hv
    unfold getSystem
    rw [hty, hafter]
    show (match List.lookup h c.systems with
          | some addr => (Except.ok addr : Except Err String)
          | none => Except.error (Err.unknownHost h)) = Except.ok v
    rw [hv]
  · intro hv
    unfold getSystem
    rw [hty, hafter]
    show (match List.lookup h c.systems with
          | some addr => (Except.ok addr : Except Err String)
          | none => Except.error (Err.unknownHost h)) =
      Except.error (Err.unknownHost h)
    rw [hv]

/-- C5 witness: with systems binding web1, the key remote@web1 resolves
to the bound address, and with empty systems it fails naming web1. -/
theorem c5_witness :
    getSystem { origKey := "remote@web1", assignment := false,
                assignmentVar := "", key := "remote@web1", value := "x",
                index := 1, systems := [("web1", "10.0.0.1")], vars := [],
                imports := [] } = .ok "10.0.0.1" ∧
    getSystem { origKey := "remote@web1", assignment := false,
                assignmentVar := "", key := "remote@web1", value := "x",
                index := 1, systems := [], vars := [],
                imports := [] } = .error (.unknownHost "web1") :=
  ⟨(c5_host_resolution _ "web1" rfl).1 "10.0.0.1" rfl,
   (c5_host_resolution _ "web1" rfl).2 rfl⟩

/-- C10: for a step whose kind is not remote, host resolution does not
fail and returns the literal "localhost", whatever the systems mapping
holds. -/
theorem c10_localhost (c : Command) (ty : KeyKind)
    (hty : getType c = .ok ty) (hne : ty ≠ .remote) :
    getSystem c = .ok "localhost" := by
  unfold getSystem
  rw [hty]
  cases ty <;> simp_all

/-- C10 witness: a local-kind step with a populated systems mapping
resolves to localhost. -/
theorem c10_witness :
    getSystem { origKey := "local", assignment := false, assignmentVar := "",
                key := "local", value := "x", index := 1,
                systems := [("web1", "10.0.0.1")], vars := [],
                imports := [] } = .ok "localhost" :=
  c10_localhost _ .local rfl (by decide)

theorem lookup_dictSet_self (l : List (String × String)) (k v : String) :
    List.lookup k (dictSet l k v) = some v := by
  induction l with
  | nil => simp [dictSet, List.lookup]
  | cons kv rest ih =>
    obtain ⟨k', v'⟩ := kv
    by_cases h : k' = k
    · subst h
      simp [dictSet, List.lookup]
    · simp only [dictSet, if_neg h, List.lookup]
      have : (k == k') = false := by
        simp [Ne.symm h]
      rw [this]
      exact ih

theorem lookup_dictSet_ne (l : List (String × String)) (k v n : String)
    (h : n ≠ k) : List.lookup n (dictSet l k v) = List.lookup n l := by
  induction l with
  | nil =>
    have hb : (n == k) = false := by simp [h]
    simp [dictSet, List.lookup, hb]
  | cons kv rest ih =>
    obtain ⟨k', v'⟩ := kv
    by_cases hk : k' = k
    · subst hk
      have hb : (n == k') = false := by simp [h]
      simp [dictSet, List.lookup, hb]
    · simp only [dictSet, if_neg hk, List.lookup]
      cases hnk : n == k'
      · exact ih
      · rfl

theorem string_append_left_cancel {p a b : String} (h : p ++ a = p ++ b) :
    a = b := by
  have hd := congrArg String.data h
  rw [sdata_append, sdata_append] at hd
  have hab := List.append_cancel_left hd
  cases a
  cases b
  exact congrArg String.mk hab

theorem lookup_merged_preserve (consts vars0 : List (String × String))
    (n : String) (h : ∀ k v, (k, v) ∈ consts → n ≠ "const_" ++ k) :
    List.lookup n (mergedVariables vars0 consts) = List.lookup n vars0 := by
  induction consts generalizing vars0 with
  | nil => rfl
  | cons kv rest ih =>
    obtain ⟨k, v⟩ := kv
    show List.lookup n (mergedVariables (dictSet vars0 ("const_" ++ k) v) rest) = _
    rw [ih _ (fun k' v' hm => h k' v' (List.mem_cons_of_mem _ hm)),
      lookup_dictSet_ne]
    exact h k v (List.mem_cons_self _ _)

theorem lookup_merged_const (vars0 consts : List (String × String))
    (X v : String) (hnd : (consts.map Prod.fst).Nodup)
    (hx : List.lookup X consts = some v) :
    List.lookup ("const_" ++ X) (mergedVariables vars0 consts) = some v := by
  induction consts generalizing vars0 with
  | nil => simp [List.lookup] at hx
  | cons kv rest ih =>
    obtain ⟨k, w⟩ := kv
    simp only [List.map_cons, List.nodup_cons] at hnd
    by_cases hk : X = k
    · subst hk
      have hv : w = v := by
        simpa [List.lookup] using hx
      subst hv
      show List.lookup ("const_" ++ X)
        (mergedVariables (dictSet vars0 ("const_" ++ X) w) rest) = some w
      rw [lookup_merged_preserve]
      · exact lookup_dictSet_self _ _ _
      · intro k' v' hm he
        exact hnd.1 (by
          have : X = k' := string_append_left_cancel he
          rw [this]
          exact List.mem_map_of_mem Prod.fst hm)
    · have hx' : List.lookup X rest = some v := by
        have : (X == k) = false := by simp [hk]
        simpa [List.lookup, this] using hx
      show List.lookup ("const_" ++ X)
        (mergedVariables (dictSet vars0 ("const_" ++ k) w) rest) = some v
      exact ih _ hnd.2 hx'

/-- C7: under the reserved naming convention (no user variable is named
const_k for a process constant k), merging the constants into the
substitution context binds every user variable name to the user value;
and get_resolved_value, whose state is made explicit, hands the run's
variables mapping back untouched (the source copies it before
inserting the constants). -/
theorem c7_merge_no_override (vars0 consts : List (String × String))
    (hconv : ∀ k v, (k, v) ∈ consts → List.lookup ("const_" ++ k) vars0 = none) :
    (∀ n val, List.lookup n vars0 = some val →
      List.lookup n (mergedVariables vars0 consts) = some val) ∧
    (∀ c : Command, c.vars = vars0 →
      (getResolvedValueV c consts).2 = vars0) := by
  constructor
  · intro n val hval
    rw [lookup_merged_preserve]
    · exact hval
    · intro k v hm he
      rw [he] at hval
      rw [hconv k v hm] at hval
      exact Option.noConfusion hval
  · intro c hc
    rw [getResolvedValueV, hc]

/-- C7 witness: with a user variable x and a constant y, the merged
mapping still binds x to the user value, and resolution returns the
variables mapping unchanged. -/
theorem c7_witness :
    List.lookup "x" (mergedVariables [("x", "uservalue")] [("y", "cv")]) =
      some "uservalue" ∧
    (getResolvedValueV
      { origKey := "local", assignment := false, assignmentVar := "",
        key := "local", value := "echo", index := 1, systems := [],
        vars := [("x", "uservalue")], imports := [] } [("y", "cv")]).2 =
      [("x", "uservalue")] :=
  ⟨(c7_merge_no_override [("x", "uservalue")] [("y", "cv")]
      (by intro k v hm; simp at hm; rw [hm.1]; rfl)).1 "x" "uservalue" rfl,
   (c7_merge_no_override [("x", "uservalue")] [("y", "cv")]
      (by intro k v hm; simp at hm; rw [hm.1]; rfl)).2 _ rfl⟩

/-- A character list with no brace characters: such text passes through
the format scan verbatim. -/
def braceFreeL (s : List Char) : Prop := ∀ ch ∈ s, ch ≠ '{' ∧ ch ≠ '}'

instance braceFreeL.instDecidable (s : List Char) : Decidable (braceFreeL s) :=
  List.decidableBAll _ s

theorem fmtGo_text (m : List (String × String)) (s t : List Char)
    (hs : braceFreeL s) :
    fmtGo m (s ++ t) .text =
      match fmtGo m t .text with
      | .ok out => .ok (s ++ out)
      | .error e => .error e := by
  induction s with
  | nil =>
    show fmtGo m t .text = match fmtGo m t .text with
      | .ok out => .ok ([] ++ out)
      | .error e => .error e
    cases fmtGo m t .text <;> rfl
  | cons c cs ih =>
    have hc := hs c (List.mem_cons_self _ _)
    rw [List.cons_append]
    rw [show fmtGo m (c :: (cs ++ t)) .text = prependChar c (fmtGo m (cs ++ t) .text) by
      simp [fmtGo, hc.1, hc.2]]
    rw [ih (fun ch h => hs ch (List.mem_cons_of_mem _ h))]
    cases fmtGo m t .text <;> rfl

theorem fmtGo_text_all (m : List (String × String)) (s : List Char)
    (hs : braceFreeL s) : fmtGo m s .text = .ok s := by
  have h := fmtGo_text m s [] hs
  rw [List.append_nil] at h
  rw [h]
  rw [show fmtGo m [] .text = .ok [] from rfl]
  simp

theorem fmtGo_field (m : List (String × String)) (nm t acc : List Char)
    (hnm : braceFreeL nm) :
    fmtGo m (nm ++ '}' :: t) (.field acc) =
      match List.lookup (String.mk (acc.reverse ++ nm)) m with
      | some v => prependStr v (fmtGo m t .text)
      | none => .error (.unresolvedVariable (String.mk (acc.reverse ++ nm))) := by
  induction nm generalizing acc with
  | nil =>
    simp only [List.nil_append, List.append_nil]
    simp [fmtGo]
  | cons c cs ih =>
    have hc := hnm c (List.mem_cons_self _ _)
    rw [List.cons_append]
    rw [show fmtGo m (c :: (cs ++ '}' :: t)) (.field acc) =
        fmtGo m (cs ++ '}' :: t) (.field (c :: acc)) by
      simp [fmtGo, hc.2]]
    rw [ih (c :: acc) (fun ch h => hnm ch (List.mem_cons_of_mem _ h))]
    simp [List.reverse_cons, List.append_assoc]

theorem fmtGo_single_field (m : List (String × String)) (nm t : List Char)
    (hnm : braceFreeL nm) (hne : nm ≠ []) :
    fmtGo m ('{' :: (nm ++ '}' :: t)) .text =
      match List.lookup (String.mk nm) m with
      | some v => prependStr v (fmtGo m t .text)
      | none => .error (.unresolvedVariable (String.mk nm)) := by
  cases nm with
  | nil => exact absurd rfl hne
  | cons c cs =>
    have hc := hnm c (List.mem_cons_self _ _)
    rw [List.cons_append]
    rw [show fmtGo m ('{' :: c :: (cs ++ '}' :: t)) .text =
        fmtGo m (c :: (cs ++ '}' :: t)) .openBrace by
      simp [fmtGo]]
    rw [show fmtGo m (c :: (cs ++ '}' :: t)) .openBrace =
        fmtGo m (cs ++ '}' :: t) (.field [c]) by
      simp [fmtGo, hc.1, hc.2]]
    rw [fmtGo_field m cs t [c] (fun ch h => hnm ch (List.mem_cons_of_mem _ h))]
    simp

theorem fmtGo_unresolved (m : List (String × String)) (n : String)
    (habs : List.lookup n m = none) :
    ∀ (l : List Char) (mode : FmtMode), wfGo l mode = true → n ∈ refGo l mode →
      ∃ n2, fmtGo m l mode = .error (.unresolvedVariable n2) ∧
        List.lookup n2 m = none := by
  intro l
  induction l with
  | nil =>
    intro mode hwf href
    cases mode with
    | text => simp [refGo] at href
    | openBrace => simp [wfGo] at hwf
    | closeBrace => simp [wfGo] at hwf
    | field acc => simp [wfGo] at hwf
  | cons ch rest ih =>
    intro mode hwf href
    cases mode with
    | text =>
      by_cases h1 : ch = '{'
      · subst h1
        simp only [wfGo, if_pos rfl] at hwf
        simp only [refGo, if_pos rfl] at href
        obtain ⟨n2, hf, hl2⟩ := ih .openBrace hwf href
        exact ⟨n2, by simp [fmtGo, hf], hl2⟩
      · by_cases h3 : ch = '}'
        · subst h3
          simp only [wfGo, if_neg h1, if_pos rfl] at hwf
          simp only [refGo, if_neg h1, if_pos rfl] at href
          obtain ⟨n2, hf, hl2⟩ := ih .closeBrace hwf href
          exact ⟨n2, by simp [fmtGo, h1, hf], hl2⟩
        · simp only [wfGo, if_neg h1, if_neg h3] at hwf
          simp only [refGo, if_neg h1, if_neg h3] at href
          obtain ⟨n2, hf, hl2⟩ := ih .text hwf href
          exact ⟨n2, by simp [fmtGo, h1, h3, hf, prependChar], hl2⟩
    | openBrace =>
      by_cases h1 : ch = '{'
      · subst h1
        simp only [wfGo, if_pos rfl] at hwf
        simp only [refGo, if_pos rfl] at href
        obtain ⟨n2, hf, hl2⟩ := ih .text hwf href
        exact ⟨n2, by simp [fmtGo, hf, prependChar], hl2⟩
      · by_cases h2 : ch = '}'
        · subst h2
          simp only [wfGo, if_neg h1, if_pos rfl] at hwf
          simp only [refGo, if_neg h1, if_pos rfl] at href
          cases hlook : List.lookup (String.mk []) m with
          | none => exact ⟨String.mk [], by simp [fmtGo, h1, hlook], hlook⟩
          | some v =>
            have href2 : n ∈ refGo rest .text := by
              rcases List.mem_cons.mp href with he | hx
              · exfalso
                rw [← he] at hlook
                rw [habs] at hlook
                exact Option.noConfusion hlook
              · exact hx
            obtain ⟨n2, hf, hl2⟩ := ih .text hwf href2
            exact ⟨n2, by simp [fmtGo, h1, hlook, hf, prependStr], hl2⟩
        · simp only [wfGo, if_neg h1, if_neg h2] at hwf
          simp only [refGo, if_neg h1, if_neg h2] at href
          obtain ⟨n2, hf, hl2⟩ := ih (.field [ch]) hwf href
          exact ⟨n2, by simp [fmtGo, h1, h2, hf], hl2⟩
    | closeBrace =>
      by_cases h1 : ch = '}'
      · subst h1
        simp only [wfGo, if_pos rfl] at hwf
        simp only [refGo, if_pos rfl] at href
        obtain ⟨n2, hf, hl2⟩ := ih .text hwf href
        exact ⟨n2, by simp [fmtGo, hf, prependChar], hl2⟩
      · simp only [wfGo, if_neg h1] at hwf
        exact absurd hwf (by simp)
    | field acc =>
      by_cases h1 : ch = '}'
      · subst h1
        simp only [wfGo, if_pos rfl] at hwf
        simp only [refGo, if_pos rfl] at href
        cases hlook : List.lookup (String.mk acc.reverse) m with
        | none => exact ⟨String.mk acc.reverse, by simp [fmtGo, hlook], hlook⟩
        | some v =>
          have href2 : n ∈ refGo rest .text := by
            rcases List.mem_cons.mp href with he | hx
            · exfalso
              rw [← he] at hlook
              rw [habs] at hlook
              exact Option.noConfusion hlook
            · exact hx
          obtain ⟨n2, hf, hl2⟩ := ih .text hwf href2
          exact ⟨n2, by simp [fmtGo, hlook, hf, prependStr], hl2⟩
      · simp only [wfGo, if_neg h1] at hwf
        simp only [refGo, if_neg h1] at href
        obtain ⟨n2, hf, hl2⟩ := ih (.field (ch :: acc)) hwf href
        exact ⟨n2, by simp [fmtGo, h1, hf], hl2⟩

/-- C6: a template containing the placeholder for the process constant
const_X resolves by substituting the value bound to X in the constants
mapping verbatim; and a well-formed template referencing any name absent
from the merged variables-plus-constants mapping makes resolution fail
with an unresolved-variable error naming an absent name — it never
silently substitutes a blank. -/
theorem c6_constant_resolution :
    (∀ (c : Command) (consts : List (String × String)) (X v pre post : String),
      (consts.map Prod.fst).Nodup →
      braceFreeL pre.data → braceFreeL post.data → braceFreeL X.data →
      c.value = pre ++ "\x7bconst_" ++ X ++ "\x7d" ++ post →
      List.lookup X consts = some v →
      getResolvedValue c consts = .ok (pre ++ v ++ post)) ∧
    (∀ (c : Command) (consts : List (String × String)) (n : String),
      wfGo c.value.data .text = true →
      n ∈ refGo c.value.data .text →
      List.lookup n (mergedVariables c.vars consts) = none →
      ∃ n2, getResolvedValue c consts = .error (.unresolvedVariable n2) ∧
        List.lookup n2 (mergedVariables c.vars consts) = none) := by
  constructor
  · intro c consts X v pre post hnd hpre hpost hX hval hx
    have hdata : c.value.data =
        pre.data ++ ('{' :: (("const_" ++ X).data ++ '}' :: post.data)) := by
      rw [hval]
      simp [sdata_append, List.append_assoc]
    have hbf : braceFreeL ("const_" ++ X).data := by
      rw [sdata_append]
      intro ch hch
      rcases List.mem_append.mp hch with h | h
      · have hc6 : ch ∈ ['c', 'o', 'n', 's', 't', '_'] := h
        fin_cases hc6 <;> exact ⟨by decide, by decide⟩
      · exact hX ch h
    have hne : ("const_" ++ X).data ≠ [] := by
      rw [sdata_append]
      simp
    have hmerged : List.lookup ("const_" ++ X) (mergedVariables c.vars consts) =
        some v := lookup_merged_const c.vars consts X v hnd hx
    unfold getResolvedValue pyFormat
    rw [hdata]
    rw [fmtGo_text _ _ _ hpre]
    rw [fmtGo_single_field _ _ _ hbf hne]
    rw [show String.mk ("const_" ++ X).data = "const_" ++ X from rfl]
    rw [hmerged]
    rw [fmtGo_text_all _ _ hpost]
    show Except.ok (String.mk (pre.data ++ (v.data ++ post.data))) =
      Except.ok (pre ++ v ++ post)
    have hfin : pre.data ++ (v.data ++ post.data) = (pre ++ v ++ post).data := by
      simp [sdata_append]
    rw [hfin]
  · intro c consts n hwf href habs
    obtain ⟨n2, hf, h2⟩ := fmtGo_unresolved (mergedVariables c.vars consts) n habs
      c.value.data .text hwf href
    refine ⟨n2, ?_, h2⟩
    unfold getResolvedValue pyFormat
    rw [hf]

/-- C6 witness: the template echo \x7bconst_x\x7d! with constant x bound to
VAL resolves to echo VAL!, and the template \x7bmissing\x7d over empty
mappings fails with an unresolved-variable error naming an absent
name. -/
theorem c6_witness :
    getResolvedValue
      { origKey := "local", assignment := false, assignmentVar := "",
        key := "local", value := "echo \x7bconst_x\x7d!", index := 1,
        systems := [], vars := [], imports := [] } [("x", "VAL")] =
      .ok ("echo " ++ "VAL" ++ "!") ∧
    (∃ n2, getResolvedValue
        { origKey := "local", assignment := false, assignmentVar := "",
          key := "local", value := "\x7bmissing\x7d", index := 1,
          systems := [], vars := [], imports := [] } [] =
        .error (.unresolvedVariable n2) ∧
      List.lookup n2 (mergedVariables [] []) = none) :=
  ⟨c6_constant_resolution.1 _ [("x", "VAL")] "x" "VAL" "echo " "!"
      (by decide) (by decide) (by decide) (by decide) rfl rfl,
   c6_constant_resolution.2 _ [] "missing" (by decide) (by decide) rfl⟩

/-- The escalation loop leaves the cleanup and warning counters alone
and never decreases the query counter. -/
theorem killLoop_counters (env : REnv) :
    ∀ (fuel : Nat) (ps : List String) (st st2 : RSt),
      killLoop env fuel ps st = some st2 →
      st2.cleanups = st.cleanups ∧ st2.warnings = st.warnings ∧
        st.pidQueries ≤ st2.pidQueries := by
  intro fuel
  induction fuel with
  | zero =>
    intro ps st st2 h
    cases ps with
    | nil =>
      rw [show killLoop env 0 [] st = some st from rfl] at h
      cases h
      exact ⟨rfl, rfl, Nat.le_refl _⟩
    | cons p ps' =>
      rw [show killLoop env 0 (p :: ps') st = none from rfl] at h
      exact Option.noConfusion h
  | succ fuel ih =>
    intro ps st st2 h
    cases ps with
    | nil =>
      rw [show killLoop env (fuel + 1) [] st = some st from rfl] at h
      cases h
      exact ⟨rfl, rfl, Nat.le_refl _⟩
    | cons p ps' =>
      rw [killLoop.eq_def] at h
      by_cases ha : env.answers st.prompts = "p"
      · simp only [ha, if_pos rfl] at h
        cases h
        exact ⟨rfl, rfl, Nat.le_refl _⟩
      · simp only [if_neg ha] at h
        obtain ⟨h1, h2, h3⟩ := ih _ _ _ h
        refine ⟨h1, h2, ?_⟩
        simp at h3
        omega

/-- C1: a remote-kind step with a non-empty imports list whose remote
execution is interrupted returns exit code 130, performs at least one
remote PID query, and attempts removal of the remote staging directory
exactly once, whatever answers the operator gives in the escalation
loop and whatever exit code the cleanup command returns. -/
theorem c1_remote_interrupt (c : Command) (consts : List (String × String))
    (env : REnv) (fuel : Nat) (st st2 : RSt) (code : Int)
    (himp : c.imports ≠ [])
    (hint : env.runInterrupted = true)
    (hrun : remoteAction c consts env fuel st = .ok code st2) :
    code = 130 ∧ st2.cleanups = st.cleanups + 1 ∧
      st.pidQueries + 1 ≤ st2.pidQueries := by
  unfold remoteAction at hrun
  cases hsys : getSystem c with
  | error e => rw [hsys] at hrun; exact RResult.noConfusion hrun
  | ok hostname =>
    rw [hsys] at hrun
    cases hres : getResolvedValue c consts with
    | error e => rw [hres] at hrun; exact RResult.noConfusion hrun
    | ok resolved =>
      rw [hres] at hrun
      cases hbld : buildCommand c consts REMOTE_TMP_DIR with
      | error e => rw [hbld] at hrun; exact RResult.noConfusion hrun
      | ok builtRemote =>
        rw [hbld] at hrun
        rw [hint] at hrun
        simp only [if_pos rfl, List.isEmpty_eq_true] at hrun
        cases hloop : killLoop env fuel (env.pids st.pidQueries)
            { st with pidQueries := st.pidQueries + 1 } with
        | none =>
          rw [hloop] at hrun
          exact RResult.noConfusion hrun
        | some stL =>
          rw [hloop] at hrun
          simp only [if_neg himp] at hrun
          obtain ⟨hcl, hwarn, hq⟩ := killLoop_counters env _ _ _ _ hloop
          by_cases hw : env.cleanupRc ≠ 0
          · simp only [if_pos hw] at hrun
            cases hrun
            refine ⟨rfl, ?_, ?_⟩
            · simpa using hcl
            · simpa using hq
          · simp only [if_neg hw] at hrun
            cases hrun
            refine ⟨rfl, ?_, ?_⟩
            · simpa using hcl
            · simpa using hq

/-- Concrete remote-kind step used by the C1 witness. -/
def cmdRemoteDemo : Command :=
  { origKey := "remote@h"
    assignment := false
    assignmentVar := ""
    key := "remote@h"
    value := "sleep 99"
    index := 1
    systems := [("h", "host1")]
    vars := []
    imports := ["lib.sh"] }

/-- Concrete interrupted remote environment used by the C1 witness: one
PID found on the first query, none on the second, operator keeps the
default SIGINT answer, cleanup exits nonzero. -/
def envRemoteDemo : REnv :=
  { runInterrupted := true
    runRc := 0
    pids := fun n => if n = 0 then ["11"] else []
    answers := fun _ => ""
    cleanupRc := 5 }

/-- C1 witness: the interrupted remote run returns 130 after two PID
queries, one prompt, one kill, exactly one cleanup attempt and one
warning; the theorem applied to it yields the claimed facts. -/
theorem c1_witness :
    remoteAction cmdRemoteDemo [] envRemoteDemo 2 ⟨0, 0, 0, 0, 0⟩ =
      .ok 130 ⟨2, 1, 1, 1, 1⟩ ∧
    ((130 : Int) = 130 ∧ (2 : Nat) + 1 ≤ 2 + 1 ∧
      (⟨2, 1, 1, 1, 1⟩ : RSt).cleanups = (⟨0, 0, 0, 0, 0⟩ : RSt).cleanups + 1 ∧
      (⟨0, 0, 0, 0, 0⟩ : RSt).pidQueries + 1 ≤ (⟨2, 1, 1, 1, 1⟩ : RSt).pidQueries) :=
  have h : remoteAction cmdRemoteDemo [] envRemoteDemo 2 ⟨0, 0, 0, 0, 0⟩ =
      .ok 130 ⟨2, 1, 1, 1, 1⟩ := rfl
  have hc := c1_remote_interrupt cmdRemoteDemo [] envRemoteDemo 2
    ⟨0, 0, 0, 0, 0⟩ ⟨2, 1, 1, 1, 1⟩ 130 (by decide) rfl h
  ⟨h, hc.1 ▸ ⟨rfl, by omega, hc.2.1, hc.2.2⟩⟩

/-- Dispatch of a non-manual step runs exactly one action, whose exit
code the environment supplies for the current run counter. -/
theorem dispatchStep_ne_manual (env : XEnv) (ty : KeyKind) (st : XSt)
    (h : ty ≠ .manual) :
    dispatchStep env ty st = (env.rcs st.runs, { st with runs := st.runs + 1 }) := by
  cases ty <;> try rfl
  exact absurd rfl h

/-- C9: at the manual gate (manual kind or interactive mode), answering
"s" ends the step with no dispatch and no failure, answering "a" raises
the abort carrying the literal "1", and a manual step that proceeds
past the gate dispatches nothing and ends normally. -/
theorem c9_manual_gate (c : Command) (consts : List (String × String))
    (env : XEnv) (fuel : Nat) (interactive force : Bool) (st : XSt)
    (ty : KeyKind) (s : String)
    (hres : getResolvedValue c consts = .ok s)
    (hty : getType c = .ok ty) :
    ((ty = .manual ∨ interactive = true) →
      (env.answers st.prompts = "s" →
        executeF c consts env (fuel + 1) interactive force st =
          (.normal, { st with prompts := st.prompts + 1 })) ∧
      (env.answers st.prompts = "a" →
        executeF c consts env (fuel + 1) interactive force st =
          (.abort "1", { st with prompts := st.prompts + 1 }))) ∧
    (ty = .manual → env.answers st.prompts ≠ "s" →
      env.answers st.prompts ≠ "a" →
      executeF c consts env (fuel + 1) interactive force st =
        (.normal, { st with prompts := st.prompts + 1 })) := by
  constructor
  · intro hga
    have hgate : (decide (ty = KeyKind.manual) || interactive) = true := by
      rcases hga with h | h <;> simp [h]
    constructor
    · intro ha
      simp only [executeF]
      rw [hres, hty]
      simp [hgate, ha]
    · intro ha
      simp only [executeF]
      rw [hres, hty]
      simp [hgate, ha]
  · intro hman hs ha
    subst hman
    simp only [executeF]
    rw [hres, hty]
    simp [hs, ha, dispatchStep]

/-- Concrete manual step used by the C9 witness. -/
def cmdManualDemo : Command :=
  { origKey := "manual"
    assignment := false
    assignmentVar := ""
    key := "manual"
    value := "check the dashboard"
    index := 1
    systems := []
    vars := []
    imports := [] }

/-- C9 witness: the manual step skipped at the gate, aborted at the
gate, and allowed past the gate, each with an environment whose actions
would return exit code 9 if any were dispatched. -/
theorem c9_witness :
    executeF cmdManualDemo [] { answers := fun _ => "s", rcs := fun _ => 9 }
      1 false false ⟨0, 0⟩ = (.normal, ⟨1, 0⟩) ∧
    executeF cmdManualDemo [] { answers := fun _ => "a", rcs := fun _ => 9 }
      1 false false ⟨0, 0⟩ = (.abort "1", ⟨1, 0⟩) ∧
    executeF cmdManualDemo [] { answers := fun _ => "p", rcs := fun _ => 9 }
      1 false false ⟨0, 0⟩ = (.normal, ⟨1, 0⟩) :=
  ⟨((c9_manual_gate cmdManualDemo []
      { answers := fun _ => "s", rcs := fun _ => 9 } 0 false false ⟨0, 0⟩
      .manual "check the dashboard" rfl rfl).1 (Or.inl rfl)).1 rfl,
   ((c9_manual_gate cmdManualDemo []
      { answers := fun _ => "a", rcs := fun _ => 9 } 0 false false ⟨0, 0⟩
      .manual "check the dashboard" rfl rfl).1 (Or.inl rfl)).2 rfl,
   (c9_manual_gate cmdManualDemo []
      { answers := fun _ => "p", rcs := fun _ => 9 } 0 false false ⟨0, 0⟩
      .manual "check the dashboard" rfl rfl).2 rfl (by decide) (by decide)⟩

/-- C3: with the force flag set, a nonzero exit code is absorbed: the
step ends normally, no failure prompt is read and no abort is raised —
in plain mode, and likewise in interactive mode once past the gate. -/
theorem c3_force_absorbs (c : Command) (consts : List (String × String))
    (env : XEnv) (fuel : Nat) (st : XSt) (ty : KeyKind) (s : String)
    (hres : getResolvedValue c consts = .ok s)
    (hty : getType c = .ok ty) (hman : ty ≠ .manual)
    (hrc : env.rcs st.runs ≠ 0) :
    executeF c consts env (fuel + 1) false true st =
      (.normal, { st with runs := st.runs + 1 }) ∧
    (env.answers st.prompts ≠ "s" → env.answers st.prompts ≠ "a" →
      executeF c consts env (fuel + 1) true true st =
        (.normal, { st with prompts := st.prompts + 1, runs := st.runs + 1 })) := by
  have hdm : ∀ st1 : XSt, dispatchStep env ty st1 =
      (env.rcs st1.runs, { st1 with runs := st1.runs + 1 }) :=
    fun st1 => dispatchStep_ne_manual env ty st1 hman
  have hgd : decide (ty = KeyKind.manual) = false := by
    simp [hman]
  constructor
  · simp only [executeF]
    rw [hres, hty]
    simp [hgd, hdm, hrc]
  · intro hs ha
    simp only [executeF]
    rw [hres, hty]
    simp [hgd, hs, ha, hdm, hrc]

/-- Concrete local step used by the C3 witness. -/
def cmdLocalDemo : Command :=
  { origKey := "local"
    assignment := false
    assignmentVar := ""
    key := "local"
    value := "true"
    index := 1
    systems := []
    vars := []
    imports := [] }

/-- C3 witness: a local step returning exit code 5 under force ends
normally with no prompt read. -/
theorem c3_witness :
    executeF cmdLocalDemo [] { answers := fun _ => "r", rcs := fun _ => 5 }
      1 false true ⟨0, 0⟩ = (.normal, ⟨0, 1⟩) :=
  (c3_force_absorbs cmdLocalDemo []
      { answers := fun _ => "r", rcs := fun _ => 5 } 0 ⟨0, 0⟩ .local "true"
      rfl rfl (by decide) (by decide)).1

/-- Concrete local step of the C2 retry scenario. -/
def cmdRetryDemo : Command :=
  { origKey := "local"
    assignment := false
    assignmentVar := ""
    key := "local"
    value := "true"
    index := 1
    systems := []
    vars := []
    imports := [] }

/-- Environment of the C2 retry scenario: every dispatch returns exit
code 2, the operator answers retry once and then proceeds. -/
def envRetryDemo : XEnv :=
  { answers := fun n => if n = 0 then "r" else ""
    rcs := fun _ => 2 }

/-- C2: at the failure gate (nonzero exit code, force unset), in plain
or interactive mode alike (g counts the one gate prompt interactive
mode reads before dispatch, its answer falling through the gate), "r"
re-invokes the entire step from scratch with the interactive flag
preserved — so an interactive run re-prompts — "a" raises the abort
carrying the string form of the exit code, and any other answer ends
the step; moreover the concrete retry scenario — exit code 2, retry
once then proceed — runs the step body exactly twice and raises no
abort. -/
theorem c2_failure_gate (c : Command) (consts : List (String × String))
    (env : XEnv) (fuel : Nat) (interactive : Bool) (st : XSt)
    (ty : KeyKind) (s : String) (g : Nat)
    (hres : getResolvedValue c consts = .ok s)
    (hty : getType c = .ok ty) (hman : ty ≠ .manual)
    (hg : g = if interactive then 1 else 0)
    (hgate : interactive = true →
      env.answers st.prompts ≠ "s" ∧ env.answers st.prompts ≠ "a")
    (hrc : env.rcs st.runs ≠ 0) :
    (env.answers (st.prompts + g) = "r" →
      executeF c consts env (fuel + 1) interactive false st =
        executeF c consts env fuel interactive false
          { st with prompts := st.prompts + g + 1, runs := st.runs + 1 }) ∧
    (env.answers (st.prompts + g) = "a" →
      executeF c consts env (fuel + 1) interactive false st =
        (.abort (toString (env.rcs st.runs)),
          { st with prompts := st.prompts + g + 1, runs := st.runs + 1 })) ∧
    (env.answers (st.prompts + g) ≠ "r" → env.answers (st.prompts + g) ≠ "a" →
      executeF c consts env (fuel + 1) interactive false st =
        (.normal,
          { st with prompts := st.prompts + g + 1, runs := st.runs + 1 })) ∧
    executeF cmdRetryDemo [] envRetryDemo 2 false false ⟨0, 0⟩ =
      (.normal, ⟨2, 2⟩) := by
  have hdm : ∀ st1 : XSt, dispatchStep env ty st1 =
      (env.rcs st1.runs, { st1 with runs := st1.runs + 1 }) :=
    fun st1 => dispatchStep_ne_manual env ty st1 hman
  have hgd : decide (ty = KeyKind.manual) = false := by
    simp [hman]
  cases interactive with
  | false =>
    simp only [if_neg Bool.false_ne_true] at hg
    subst hg
    refine ⟨?_, ?_, ?_, rfl⟩
    · intro ha
      rw [show st.prompts + 0 = st.prompts from rfl] at ha
      simp only [executeF]
      rw [hres, hty]
      simp [hgd, hdm, hrc, ha]
    · intro ha
      rw [show st.prompts + 0 = st.prompts from rfl] at ha
      simp only [executeF]
      rw [hres, hty]
      simp [hgd, hdm, hrc, ha]
    · intro hr ha
      rw [show st.prompts + 0 = st.prompts from rfl] at hr ha
      simp only [executeF]
      rw [hres, hty]
      simp [hgd, hdm, hrc, hr, ha]
  | true =>
    simp at hg
    subst hg
    obtain ⟨hs, hab⟩ := hgate rfl
    refine ⟨?_, ?_, ?_, rfl⟩
    · intro ha
      simp only [executeF]
      rw [hres, hty]
      simp [hgd, hs, hab, hdm, hrc, ha]
    · intro ha
      simp only [executeF]
      rw [hres, hty]
      simp [hgd, hs, hab, hdm, hrc, ha]
    · intro hr ha
      simp only [executeF]
      rw [hres, hty]
      simp [hgd, hs, hab, hdm, hrc, hr, ha]

/-- C2 witness: with dispatch returning exit code 2, answering abort at
the failure gate ends with the abort carrying "2" — exercised in plain
mode, and in interactive mode after a gate answer that proceeds. -/
theorem c2_witness :
    executeF cmdRetryDemo []
      { answers := fun _ => "a", rcs := fun _ => 2 } 1 false false ⟨0, 0⟩ =
      (.abort "2", ⟨1, 1⟩) ∧
    executeF cmdRetryDemo []
      { answers := fun n => if n = 0 then "p" else "a", rcs := fun _ => 2 }
      1 true false ⟨0, 0⟩ = (.abort "2", ⟨2, 1⟩) :=
  ⟨(c2_failure_gate cmdRetryDemo []
      { answers := fun _ => "a", rcs := fun _ => 2 } 0 false ⟨0, 0⟩ .local
      "true" 0 rfl rfl (by decide) rfl (by simp) (by decide)).2.1 rfl,
   (c2_failure_gate cmdRetryDemo []
      { answers := fun n => if n = 0 then "p" else "a", rcs := fun _ => 2 }
      0 true ⟨0, 0⟩ .local "true" 1 rfl rfl (by decide) rfl
      (fun _ => ⟨by decide, by decide⟩) (by decide)).2.1 rfl⟩

/-- C8: a Step is constructed from exactly the first key/value pair of
its source entry — the remaining pairs never influence the result — and
a value that is a mapping with exactly one key makes the value template
the single placeholder referencing that key. -/
theorem c8_first_pair (first : String × CmdValue)
    (rest : List (String × CmdValue)) (index : Nat)
    (systems vars0 : List (String × String)) (imports : List String) :
    mkCommand (first :: rest) index systems vars0 imports =
      mkCommand [first] index systems vars0 imports ∧
    (∀ k vk vv, first = (k, .dict [(vk, vv)]) →
      ∃ c, mkCommand (first :: rest) index systems vars0 imports = some c ∧
        c.value = "\x7b" ++ vk ++ "\x7d") := by
  obtain ⟨k0, v0⟩ := first
  constructor
  · rfl
  · intro k vk vv hf
    rw [hf]
    exact ⟨_, rfl, rfl⟩

/-- C8 witness: an entry with two pairs whose first value is a
single-key mapping builds the same Step as the entry holding only the
first pair, with the value template collapsed to the placeholder. -/
theorem c8_witness :
    mkCommand [("r=local", .dict [("myvar", "zz")]), ("ignored", .str "qq")]
        1 [] [] [] =
      mkCommand [("r=local", .dict [("myvar", "zz")])] 1 [] [] [] ∧
    ∃ c, mkCommand [("r=local", .dict [("myvar", "zz")]), ("ignored", .str "qq")]
        1 [] [] [] = some c ∧ c.value = "\x7b" ++ "myvar" ++ "\x7d" :=
  ⟨(c8_first_pair ("r=local", .dict [("myvar", "zz")])
      [("ignored", .str "qq")] 1 [] [] []).1,
   (c8_first_pair ("r=local", .dict [("myvar", "zz")])
      [("ignored", .str "qq")] 1 [] [] []).2 "r=local" "myvar" "zz" rfl⟩

end Automatix
